import Mathlib

/-!
Verification of the cryptosia-backend inference service (src/main.py).

The endpoints `predict`, `available_coins`, `debug_prices` and `get_signal`
are shallowly embedded below.  Prices are modelled as rationals; the
IEEE value produced by a division by zero (inf or nan) is modelled by the
distinguished value `FloatQ.undef`, every finite float by `FloatQ.val`.
The filesystem is modelled by explicit maps: a price store sending each coin
name to the parsed contents of `data/<coin>.json` (or the exception message
raised while opening or parsing it), and a model registry sending each coin
name to its deserialized (scaler, model) pair (or the loading exception).
-/

namespace Cryptosia

/-- One parsed JSON entry of a price file.  `bare` is a plain number,
`priceRec` a JSON record carrying a "price" field, and `other` stands for
any other JSON value (for example a record without a "price" field). -/
inductive Entry where
  | bare (x : ℚ)
  | priceRec (price : ℚ)
  | other
  deriving DecidableEq

/-- A float value: either a finite number or the non-finite result
(inf or nan) that numpy produces for a division by zero. -/
inductive FloatQ where
  | val (q : ℚ)
  | undef
  deriving DecidableEq

/-- Float division as numpy performs it on scalars: division by zero does
not raise, it yields a non-finite value (modelled as `undef`). -/
def fdiv (a b : ℚ) : FloatQ :=
  if b = 0 then FloatQ.undef else FloatQ.val (a / b)

/-- Python's `abs` on a float. -/
def pyAbs (x : ℚ) : ℚ := if x < 0 then -x else x

/-- Round a rational to the nearest integer, ties to even — the rounding
mode of Python's built-in `round`. -/
def roundHalfEvenZ (x : ℚ) : ℤ :=
  let n := x.floor
  let r := x - n
  if r < 1 / 2 then n
  else if 1 / 2 < r then n + 1
  else if n % 2 = 0 then n else n + 1

/-- Python's `round(x, d)` on a finite float, in exact rational arithmetic. -/
def pyRound (d : ℕ) (x : ℚ) : ℚ :=
  (roundHalfEvenZ (x * (10 ^ d : ℕ)) : ℚ) / (10 ^ d : ℕ)

/-- `round(x, d)` lifted to float values: rounding inf or nan returns it
unchanged. -/
def FloatQ.roundTo (d : ℕ) : FloatQ → FloatQ
  | FloatQ.val q => FloatQ.val (pyRound d q)
  | FloatQ.undef => FloatQ.undef

/-- Whether a float value is an ordinary (finite) number. -/
def FloatQ.isFinite : FloatQ → Bool
  | FloatQ.val _ => true
  | FloatQ.undef => false

/-- Python's `xs[-n:]` on a list: the last `min (length xs) n` elements. -/
def lastN (n : ℕ) (xs : List α) : List α :=
  xs.drop (xs.length - n)

/-- Evaluation of the Python subscript `entry["price"]`: succeeds only on a
record that has a "price" field, otherwise raises (TypeError on a number,
KeyError on a record without the field; the messages are representative). -/
def getPrice : Entry → Except String ℚ
  | Entry.priceRec p => Except.ok p
  | Entry.bare _ => Except.error "float object is not subscriptable"
  | Entry.other => Except.error "price"

/-- Evaluation of the list comprehension
`[entry["price"] for entry in prices[-60:]]` over its input list: collect
the price fields left to right, raising at the first entry that has none. -/
def extractPrices : List Entry → Except String (List ℚ)
  | [] => Except.ok []
  | e :: rest =>
    match getPrice e with
    | Except.error m => Except.error m
    | Except.ok p =>
      match extractPrices rest with
      | Except.error m => Except.error m
      | Except.ok ps => Except.ok (p :: ps)

/-- A numpy array as the pipeline observes it: its shape tuple and its
row-major elements. -/
structure NDArr where
  shape : List ℕ
  elems : List ℚ
  deriving DecidableEq

/-- The numpy repr of a shape tuple, e.g. "(1, 1)", "(5,)", "()". -/
def tupleRepr : List ℕ → String
  | [] => "()"
  | [n] => "(" ++ toString n ++ ",)"
  | ns => "(" ++ String.intercalate ", " (ns.map toString) ++ ")"

/-- A deserialized (scaler, model) pair for one coin.  The scaler's forward
and inverse transforms act elementwise on the single feature column; the
model maps the scaled 60-point window to a numpy array. -/
structure Artifacts where
  transform : ℚ → ℚ
  inverse : ℚ → ℚ
  model : List ℚ → NDArr

/-- The price store: coin name to parsed contents of `data/<coin>.json`,
or the exception message raised while opening or parsing that file. -/
abbrev Store := String → Except String (List Entry)

/-- The model registry: coin name to its deserialized artifacts, or the
exception message raised by `joblib.load` / `load_model`. -/
abbrev ModelReg := String → Except String Artifacts

/-- The payload returned by the /predict endpoint: a success record with
all four fields, or a record with a single error field. -/
inductive PredictResult where
  | ok (prediction : String) (confidence : FloatQ)
      (predicted_price : ℚ) (last_price : ℚ)
  | err (msg : String)
  deriving DecidableEq

/-- Whether a /predict payload is the error form (has the error field). -/
def PredictResult.isErr : PredictResult → Bool
  | PredictResult.ok _ _ _ _ => false
  | PredictResult.err _ => true

/-- The error message returned when fewer than 60 points are stored. -/
def insufficientDataMsg : String := "Not enough data. Minimum 60 prices required."

/-- The error message returned when the model output shape is unexpected. -/
def unexpectedShapeMsg (shape : List ℕ) : String :=
  "Unexpected prediction shape: " ++ tupleRepr shape

/-- The IndexError message raised when `pred[0]` is taken on an empty axis. -/
def indexErrMsg : String := "index 0 is out of bounds for axis 0 with size 0"

/-- The IndexError message raised when `[-1]` is taken on an empty array. -/
def lastIndexErrMsg : String := "index -1 is out of bounds for axis 0 with size 0"

/-- The body of the `try` block of `predict` (src/main.py lines 29-61).
`Except.error` marks an exception escaping to the handler; `Except.ok`
a value returned directly.  The boolean records whether the model
registry (lines 38-39, `joblib.load` / `load_model`) was invoked. -/
def predictBody (store : Store) (reg : ModelReg) (coin : String) :
    Except String PredictResult × Bool :=
  match store coin with
  | Except.error e => (Except.error e, false)
  | Except.ok prices =>
    if prices.length < 60 then
      (Except.ok (PredictResult.err insufficientDataMsg), false)
    else
      match extractPrices (lastN 60 prices) with
      | Except.error e => (Except.error e, false)
      | Except.ok w =>
        match reg coin with
        | Except.error e => (Except.error e, true)
        | Except.ok a =>
          let pred := a.model (w.map a.transform)
          if pred.shape.length = 2 ∧ pred.shape.get? 1 = some 1 then
            match pred.elems.get? 0 with
            | none => (Except.error indexErrMsg, true)
            | some v =>
              let predicted_price := a.inverse v
              match w.getLast? with
              | none => (Except.error lastIndexErrMsg, true)
              | some last_price =>
                let direction :=
                  if predicted_price > last_price then "up" else "down"
                let confidence :=
                  fdiv (pyAbs (predicted_price - last_price)) last_price
                (Except.ok (PredictResult.ok direction
                    (FloatQ.roundTo 4 confidence)
                    (pyRound 2 predicted_price)
                    (pyRound 2 last_price)), true)
          else
            (Except.ok (PredictResult.err (unexpectedShapeMsg pred.shape)), true)

/-- The /predict endpoint: the `try` body with its `except` handler, which
converts any escaped exception into an error payload. -/
def predict (store : Store) (reg : ModelReg) (coin : String) : PredictResult :=
  match (predictBody store reg coin).1 with
  | Except.ok r => r
  | Except.error e => PredictResult.err e

/-- Whether a call to `predict` reached the model registry loads. -/
def predictCallsReg (store : Store) (reg : ModelReg) (coin : String) : Bool :=
  (predictBody store reg coin).2

/-- The character list of the literal ".json". -/
def jsonSuffix : List Char := ['.', 'j', 's', 'o', 'n']

/-- Python's `f.endswith(".json")`. -/
def endsWithJson (f : List Char) : Bool := decide (jsonSuffix <:+ f)

/-- Python's `f.replace(".json", "")`: delete every non-overlapping
occurrence of ".json", scanning left to right. -/
def replaceJson : List Char → List Char
  | '.' :: 'j' :: 's' :: 'o' :: 'n' :: rest => replaceJson rest
  | c :: rest => c :: replaceJson rest
  | [] => []

/-- The list comprehension of the /available-coins endpoint (lines 70-71):
keep the file names ending in ".json" and strip the extension. -/
def availableCoinsList (files : List (List Char)) : List (List Char) :=
  (files.filter endsWithJson).map replaceJson

/-- The payload returned by the /available-coins endpoint. -/
inductive CoinsResult where
  | ok (coins : List (List Char))
  | err (msg : String)
  deriving DecidableEq

/-- The /available-coins endpoint: `os.listdir("data")` either raises
(`Except.error`, converted to an error payload) or yields the directory
contents, which are filtered and stripped. -/
def available_coins (listing : Except String (List (List Char))) : CoinsResult :=
  match listing with
  | Except.error e => CoinsResult.err e
  | Except.ok files => CoinsResult.ok (availableCoinsList files)

/-- The per-entry cleaning of /debug-prices (line 82): a record with a
"price" field becomes the value of that field; anything else is kept. -/
def cleanEntry : Entry → Entry
  | Entry.priceRec p => Entry.bare p
  | e => e

/-- The payload returned by the /debug-prices endpoint. -/
inductive DebugResult where
  | ok (coin : String) (last_60_prices : List Entry)
  | err (msg : String)
  deriving DecidableEq

/-- The /debug-prices endpoint (lines 78-85). -/
def debug_prices (store : Store) (coin : String) : DebugResult :=
  match store coin with
  | Except.error e => DebugResult.err e
  | Except.ok prices => DebugResult.ok coin (lastN 60 (prices.map cleanEntry))

/-- The payload returned by the /signal endpoint. -/
inductive SignalResult where
  | ok (signal : String) (change : ℚ)
  | err (msg : String)
  deriving DecidableEq

/-- The /signal endpoint (lines 132-154): requires at least 2 points, takes
change = last - previous, classifies it, and rounds the change to 4
decimal places. -/
def get_signal (store : Store) (coin : String) : SignalResult :=
  match store coin with
  | Except.error e => SignalResult.err e
  | Except.ok prices =>
    if prices.length < 2 then SignalResult.err "Not enough data"
    else
      match prices.get? (prices.length - 1) with
      | none => SignalResult.err lastIndexErrMsg
      | some e1 =>
        match getPrice e1 with
        | Except.error m => SignalResult.err m
        | Except.ok last_price =>
          match prices.get? (prices.length - 2) with
          | none => SignalResult.err lastIndexErrMsg
          | some e2 =>
            match getPrice e2 with
            | Except.error m => SignalResult.err m
            | Except.ok prev_price =>
              let change := last_price - prev_price
              let signal :=
                if pyAbs change < 1 then "hold"
                else if change > 0 then "buy" else "sell"
              SignalResult.ok signal (pyRound 4 change)

theorem pyAbs_nonneg (x : ℚ) : 0 ≤ pyAbs x := by
  by_cases h : x < 0 <;> simp only [pyAbs, h, if_true, if_false] <;> linarith

theorem pyAbs_eq_abs (x : ℚ) : pyAbs x = |x| := by
  by_cases h : x < 0
  · simp only [pyAbs, h, if_true]
    exact (abs_of_neg h).symm
  · simp only [pyAbs, h, if_false]
    exact (abs_of_nonneg (not_lt.mp h)).symm

theorem rat_floor_eq_intFloor (x : ℚ) : (x.floor : ℤ) = ⌊x⌋ := rfl

theorem roundHalfEvenZ_nonneg {x : ℚ} (hx : 0 ≤ x) : 0 ≤ roundHalfEvenZ x := by
  have h0 : (0 : ℤ) ≤ x.floor := by
    rw [rat_floor_eq_intFloor]
    exact Int.floor_nonneg.mpr hx
  unfold roundHalfEvenZ
  dsimp only
  split_ifs <;> omega

theorem pyRound_nonneg (d : ℕ) {x : ℚ} (hx : 0 ≤ x) : 0 ≤ pyRound d x := by
  unfold pyRound
  apply div_nonneg
  · exact_mod_cast roundHalfEvenZ_nonneg (mul_nonneg hx (by positivity))
  · positivity

theorem lastN_length (n : ℕ) (l : List α) : (lastN n l).length = min l.length n := by
  simp only [lastN, List.length_drop]
  omega

theorem lastN_map (n : ℕ) (f : α → β) (l : List α) :
    lastN n (l.map f) = (lastN n l).map f := by
  simp only [lastN, List.length_map]
  exact (List.map_drop f l (l.length - n)).symm

theorem predictBody_store_err (store : Store) (reg : ModelReg) (coin : String)
    (e : String) (hs : store coin = Except.error e) :
    predictBody store reg coin = (Except.error e, false) := by
  simp only [predictBody, hs]

theorem predictBody_insufficient (store : Store) (reg : ModelReg) (coin : String)
    (prices : List Entry) (hs : store coin = Except.ok prices)
    (hlen : prices.length < 60) :
    predictBody store reg coin
      = (Except.ok (PredictResult.err insufficientDataMsg), false) := by
  simp only [predictBody, hs]
  rw [if_pos hlen]

theorem predictBody_extract_err (store : Store) (reg : ModelReg) (coin : String)
    (prices : List Entry) (m : String) (hs : store coin = Except.ok prices)
    (hlen : 60 ≤ prices.length)
    (hw : extractPrices (lastN 60 prices) = Except.error m) :
    predictBody store reg coin = (Except.error m, false) := by
  simp only [predictBody, hs]
  rw [if_neg (by omega), hw]

theorem predictBody_reg_err (store : Store) (reg : ModelReg) (coin : String)
    (prices : List Entry) (w : List ℚ) (e : String)
    (hs : store coin = Except.ok prices) (hlen : 60 ≤ prices.length)
    (hw : extractPrices (lastN 60 prices) = Except.ok w)
    (hr : reg coin = Except.error e) :
    predictBody store reg coin = (Except.error e, true) := by
  simp only [predictBody, hs]
  rw [if_neg (by omega), hw, hr]

theorem predictBody_shape_err (store : Store) (reg : ModelReg) (coin : String)
    (prices : List Entry) (w : List ℚ) (a : Artifacts)
    (hs : store coin = Except.ok prices) (hlen : 60 ≤ prices.length)
    (hw : extractPrices (lastN 60 prices) = Except.ok w)
    (hr : reg coin = Except.ok a)
    (hshape : ¬((a.model (w.map a.transform)).shape.length = 2 ∧
        (a.model (w.map a.transform)).shape.get? 1 = some 1)) :
    predictBody store reg coin
      = (Except.ok (PredictResult.err
          (unexpectedShapeMsg (a.model (w.map a.transform)).shape)), true) := by
  simp only [predictBody, hs]
  rw [if_neg (by omega), hw, hr]
  simp only [if_neg hshape]

theorem predictBody_eval (store : Store) (reg : ModelReg) (coin : String)
    (prices : List Entry) (w : List ℚ) (a : Artifacts) (v lp : ℚ)
    (hs : store coin = Except.ok prices) (hlen : 60 ≤ prices.length)
    (hw : extractPrices (lastN 60 prices) = Except.ok w)
    (hr : reg coin = Except.ok a)
    (hshape : (a.model (w.map a.transform)).shape = [1, 1])
    (helems : (a.model (w.map a.transform)).elems = [v])
    (hlast : w.getLast? = some lp) :
    predictBody store reg coin
      = (Except.ok (PredictResult.ok
          (if a.inverse v > lp then "up" else "down")
          (FloatQ.roundTo 4 (fdiv (pyAbs (a.inverse v - lp)) lp))
          (pyRound 2 (a.inverse v)) (pyRound 2 lp)), true) := by
  simp only [predictBody, hs]
  rw [if_neg (by omega), hw, hr]
  dsimp only
  rw [hshape, helems]
  simp [hlast]

theorem predict_of_body_ok (store : Store) (reg : ModelReg) (coin : String)
    (r : PredictResult) (b : Bool)
    (h : predictBody store reg coin = (Except.ok r, b)) :
    predict store reg coin = r := by
  simp only [predict, h]

theorem predict_of_body_err (store : Store) (reg : ModelReg) (coin : String)
    (e : String) (b : Bool)
    (h : predictBody store reg coin = (Except.error e, b)) :
    predict store reg coin = PredictResult.err e := by
  simp only [predict, h]

/-- C2: on a symbol whose stored series has fewer than 60 points, `predict`
returns the insufficient-data error payload, the model registry is not
invoked, and the result is independent of the registry contents. -/
theorem predict_insufficient_skips_registry (store : Store)
    (reg reg₂ : ModelReg) (coin : String) (prices : List Entry)
    (hs : store coin = Except.ok prices) (hlen : prices.length < 60) :
    predict store reg coin = PredictResult.err insufficientDataMsg ∧
    predictCallsReg store reg coin = false ∧
    predict store reg coin = predict store reg₂ coin := by
  have h1 := predictBody_insufficient store reg coin prices hs hlen
  have h2 := predictBody_insufficient store reg₂ coin prices hs hlen
  refine ⟨predict_of_body_ok _ _ _ _ _ h1, ?_, ?_⟩
  · simp only [predictCallsReg, h1]
  · rw [predict_of_body_ok _ _ _ _ _ h1, predict_of_body_ok _ _ _ _ _ h2]

/-- Witness for C2: a one-point store, with a registry that would fail if
consulted. -/
theorem predict_insufficient_skips_registry_witness :
    predict (fun _ => Except.ok [Entry.priceRec 5])
        (fun _ => Except.error "no model") "btc"
      = PredictResult.err insufficientDataMsg ∧
    predictCallsReg (fun _ => Except.ok [Entry.priceRec 5])
        (fun _ => Except.error "no model") "btc" = false := by
  have h := predict_insufficient_skips_registry
    (fun _ => Except.ok [Entry.priceRec 5]) (fun _ => Except.error "no model")
    (fun _ => Except.ok ⟨id, id, fun _ => ⟨[], []⟩⟩) "btc"
    [Entry.priceRec 5] rfl (by decide)
  exact ⟨h.1, h.2.1⟩

/-- C6: with at least two stored points whose last two entries are records
with a price field, `get_signal` computes change = last - previous and
returns "hold" when the absolute change is strictly below 1, otherwise
"buy" for a positive change and "sell" otherwise; with fewer than two
points it returns the not-enough-data error. -/
theorem get_signal_spec (store : Store) (coin : String) (prices : List Entry)
    (hs : store coin = Except.ok prices) :
    (prices.length < 2 →
      get_signal store coin = SignalResult.err "Not enough data") ∧
    (∀ lp pv : ℚ, 2 ≤ prices.length →
      prices.get? (prices.length - 1) = some (Entry.priceRec lp) →
      prices.get? (prices.length - 2) = some (Entry.priceRec pv) →
      get_signal store coin = SignalResult.ok
        (if pyAbs (lp - pv) < 1 then "hold"
         else if lp - pv > 0 then "buy" else "sell")
        (pyRound 4 (lp - pv))) := by
  constructor
  · intro h
    simp only [get_signal, hs]
    rw [if_pos h]
  · intro lp pv hlen h1 h2
    simp only [get_signal, hs]
    rw [if_neg (by omega), h1]
    dsimp only [getPrice]
    rw [h2]

/-- Witness for C6: change exactly 1 is not "hold" (strict boundary) but
"buy". -/
theorem get_signal_spec_witness :
    get_signal (fun _ => Except.ok [Entry.priceRec 0, Entry.priceRec 1]) "btc"
      = SignalResult.ok "buy" 1 := by
  have h := (get_signal_spec
    (fun _ => Except.ok [Entry.priceRec 0, Entry.priceRec 1]) "btc"
    [Entry.priceRec 0, Entry.priceRec 1] rfl).2 1 0 (by decide) rfl rfl
  rw [h]
  with_unfolding_all decide

/-- C8: once the pipeline reaches the model invocation, a model output whose
shape is not two-dimensional with exactly one value per sample makes
`predict` return the descriptive unexpected-shape error payload: the error
dict is returned from inside the try block, not raised. -/
theorem predict_unexpected_shape (store : Store) (reg : ModelReg)
    (coin : String) (prices : List Entry) (w : List ℚ) (a : Artifacts)
    (hs : store coin = Except.ok prices) (hlen : 60 ≤ prices.length)
    (hw : extractPrices (lastN 60 prices) = Except.ok w)
    (hr : reg coin = Except.ok a)
    (hshape : ¬((a.model (w.map a.transform)).shape.length = 2 ∧
        (a.model (w.map a.transform)).shape.get? 1 = some 1)) :
    predict store reg coin = PredictResult.err
        (unexpectedShapeMsg (a.model (w.map a.transform)).shape) ∧
    (predictBody store reg coin).1 = Except.ok (PredictResult.err
        (unexpectedShapeMsg (a.model (w.map a.transform)).shape)) := by
  have h := predictBody_shape_err store reg coin prices w a hs hlen hw hr hshape
  exact ⟨predict_of_body_ok _ _ _ _ _ h, by rw [h]⟩

/-- Witness for C8: a model returning a one-dimensional output of 60 values
yields the unexpected-shape error naming the shape (60,). -/
theorem predict_unexpected_shape_witness :
    predict (fun _ => Except.ok (List.replicate 59 (Entry.priceRec 1)
        ++ [Entry.priceRec 2]))
      (fun _ => Except.ok ⟨id, id, fun _ => ⟨[60], List.replicate 60 1⟩⟩) "ada"
      = PredictResult.err "Unexpected prediction shape: (60,)" := by
  have h := (predict_unexpected_shape
    (fun _ => Except.ok (List.replicate 59 (Entry.priceRec 1) ++ [Entry.priceRec 2]))
    (fun _ => Except.ok ⟨id, id, fun _ => ⟨[60], List.replicate 60 1⟩⟩) "ada"
    (List.replicate 59 (Entry.priceRec 1) ++ [Entry.priceRec 2])
    (List.replicate 59 1 ++ [2])
    ⟨id, id, fun _ => ⟨[60], List.replicate 60 1⟩⟩
    rfl (by decide)
    (show extractPrices (lastN 60 (List.replicate 59 (Entry.priceRec 1)
        ++ [Entry.priceRec 2])) = Except.ok (List.replicate 59 1 ++ [2]) from rfl)
    rfl (by decide)).1
  rw [h]
  with_unfolding_all decide

/-- C10: for every parsed price list, `debug_prices` succeeds with the last
min(n, 60) entries, each record with a price field replaced by the value of
that field and every other entry passed through unchanged. -/
theorem debug_prices_spec (store : Store) (coin : String) (prices : List Entry)
    (hs : store coin = Except.ok prices) :
    debug_prices store coin
      = DebugResult.ok coin ((lastN 60 prices).map cleanEntry) ∧
    ((lastN 60 prices).map cleanEntry).length = min prices.length 60 ∧
    (∀ i : ℕ, ((lastN 60 prices).map cleanEntry).get? i
        = ((lastN 60 prices).get? i).map cleanEntry) ∧
    (∀ p : ℚ, cleanEntry (Entry.priceRec p) = Entry.bare p) ∧
    (∀ x : ℚ, cleanEntry (Entry.bare x) = Entry.bare x) ∧
    cleanEntry Entry.other = Entry.other := by
  refine ⟨?_, ?_, ?_, fun _ => rfl, fun _ => rfl, rfl⟩
  · simp only [debug_prices, hs]
    rw [lastN_map]
  · rw [List.length_map, lastN_length]
  · intro i
    simp [List.get?_eq_getElem?, List.getElem?_map]

/-- Witness for C10: a three-entry store (shorter than 60) holding all three
entry forms succeeds and cleans only the record-with-price entry. -/
theorem debug_prices_spec_witness :
    debug_prices (fun _ => Except.ok
        [Entry.bare 7, Entry.priceRec 3, Entry.other]) "btc"
      = DebugResult.ok "btc" [Entry.bare 7, Entry.bare 3, Entry.other] := by
  rw [(debug_prices_spec (fun _ => Except.ok
      [Entry.bare 7, Entry.priceRec 3, Entry.other]) "btc"
      [Entry.bare 7, Entry.priceRec 3, Entry.other] rfl).1]
  with_unfolding_all decide

/-- Counterexample for C1 as stated: with 60 well-formed stored points and
well-formed artifacts, a zero last price yields a confidence that is not a
number (the non-finite result of dividing by zero), and a negative last
price yields a negative confidence. -/
theorem predict_conf_not_nonneg_cex :
    predict (fun _ => Except.ok (List.replicate 60 (Entry.priceRec 0)))
        (fun _ => Except.ok ⟨id, id, fun _ => ⟨[1, 1], [0]⟩⟩) "btc"
      = PredictResult.ok "down" FloatQ.undef 0 0 ∧
    FloatQ.isFinite FloatQ.undef = false ∧
    predict (fun _ => Except.ok (List.replicate 60 (Entry.priceRec (-2))))
        (fun _ => Except.ok ⟨id, id, fun _ => ⟨[1, 1], [-1]⟩⟩) "xrp"
      = PredictResult.ok "up" (FloatQ.val (-1/2)) (-1) (-2) ∧
    (-1/2 : ℚ) < 0 := by
  refine ⟨by with_unfolding_all decide, rfl,
    by with_unfolding_all decide, by norm_num⟩

/-- C1 (amended): for a symbol with at least 60 stored record-form points,
well-formed artifacts, and a positive most recent price, `predict` returns
direction "up" or "down" and a non-negative numeric confidence. -/
theorem predict_up_down_conf_nonneg (store : Store) (reg : ModelReg)
    (coin : String) (prices : List Entry) (w : List ℚ) (a : Artifacts)
    (v lp : ℚ)
    (hs : store coin = Except.ok prices) (hlen : 60 ≤ prices.length)
    (hw : extractPrices (lastN 60 prices) = Except.ok w)
    (hr : reg coin = Except.ok a)
    (hshape : (a.model (w.map a.transform)).shape = [1, 1])
    (helems : (a.model (w.map a.transform)).elems = [v])
    (hlast : w.getLast? = some lp) (hpos : 0 < lp) :
    ∃ c : ℚ, 0 ≤ c ∧
      (predict store reg coin = PredictResult.ok "up" (FloatQ.val c)
          (pyRound 2 (a.inverse v)) (pyRound 2 lp) ∨
       predict store reg coin = PredictResult.ok "down" (FloatQ.val c)
          (pyRound 2 (a.inverse v)) (pyRound 2 lp)) := by
  have h := predict_of_body_ok _ _ _ _ _
    (predictBody_eval store reg coin prices w a v lp hs hlen hw hr hshape helems hlast)
  simp only [fdiv, if_neg (ne_of_gt hpos), FloatQ.roundTo] at h
  refine ⟨pyRound 4 (pyAbs (a.inverse v - lp) / lp),
    pyRound_nonneg 4 (div_nonneg (pyAbs_nonneg _) hpos.le), ?_⟩
  by_cases hdir : a.inverse v > lp
  · rw [if_pos hdir] at h
    exact Or.inl h
  · rw [if_neg hdir] at h
    exact Or.inr h

/-- Witness for C1 (amended): last price 2, prediction 3 gives "up" with
the non-negative confidence 1/2. -/
theorem predict_up_down_conf_nonneg_witness :
    (0:ℚ) ≤ 1/2 ∧
    predict (fun _ => Except.ok
        (List.replicate 59 (Entry.priceRec 1) ++ [Entry.priceRec 2]))
      (fun _ => Except.ok ⟨id, id, fun _ => ⟨[1, 1], [3]⟩⟩) "ada"
      = PredictResult.ok "up" (FloatQ.val (1/2)) 3 2 := by
  obtain ⟨-, -, -⟩ := predict_up_down_conf_nonneg
    (fun _ => Except.ok (List.replicate 59 (Entry.priceRec 1) ++ [Entry.priceRec 2]))
    (fun _ => Except.ok ⟨id, id, fun _ => ⟨[1, 1], [3]⟩⟩) "ada"
    (List.replicate 59 (Entry.priceRec 1) ++ [Entry.priceRec 2])
    (List.replicate 59 1 ++ [2]) ⟨id, id, fun _ => ⟨[1, 1], [3]⟩⟩ 3 2
    rfl (by decide)
    (show extractPrices (lastN 60 (List.replicate 59 (Entry.priceRec 1)
        ++ [Entry.priceRec 2])) = Except.ok (List.replicate 59 1 ++ [2]) from rfl)
    rfl rfl rfl
    (show (List.replicate 59 (1:ℚ) ++ [2]).getLast? = some (2:ℚ) from rfl)
    (by norm_num)
  exact ⟨by norm_num, by with_unfolding_all decide⟩

/-- C3: on the success path the direction is "up" exactly when the
denormalized prediction strictly exceeds the last price, and "down"
otherwise — in particular on exact equality. -/
theorem predict_direction_iff (store : Store) (reg : ModelReg)
    (coin : String) (prices : List Entry) (w : List ℚ) (a : Artifacts)
    (v lp : ℚ)
    (hs : store coin = Except.ok prices) (hlen : 60 ≤ prices.length)
    (hw : extractPrices (lastN 60 prices) = Except.ok w)
    (hr : reg coin = Except.ok a)
    (hshape : (a.model (w.map a.transform)).shape = [1, 1])
    (helems : (a.model (w.map a.transform)).elems = [v])
    (hlast : w.getLast? = some lp) :
    ∃ d c, predict store reg coin
        = PredictResult.ok d c (pyRound 2 (a.inverse v)) (pyRound 2 lp) ∧
      (d = "up" ↔ lp < a.inverse v) ∧
      (d = "down" ↔ ¬ lp < a.inverse v) := by
  have h := predict_of_body_ok _ _ _ _ _
    (predictBody_eval store reg coin prices w a v lp hs hlen hw hr hshape helems hlast)
  by_cases hdir : a.inverse v > lp
  · rw [if_pos hdir] at h
    exact ⟨"up", _, h, by simp [hdir], by simp [hdir]⟩
  · rw [if_neg hdir] at h
    exact ⟨"down", _, h, by simp [hdir], by simp [hdir]⟩

/-- Witness for C3: prediction exactly equal to the last price (100 = 100)
is classified "down". -/
theorem predict_direction_iff_witness :
    predict (fun _ => Except.ok (List.replicate 60 (Entry.priceRec 100)))
        (fun _ => Except.ok ⟨id, id, fun _ => ⟨[1, 1], [100]⟩⟩) "btc"
      = PredictResult.ok "down" (FloatQ.val 0) 100 100 := by
  obtain ⟨-, -, -, -, -⟩ := predict_direction_iff
    (fun _ => Except.ok (List.replicate 60 (Entry.priceRec 100)))
    (fun _ => Except.ok ⟨id, id, fun _ => ⟨[1, 1], [100]⟩⟩) "btc"
    (List.replicate 60 (Entry.priceRec 100)) (List.replicate 60 100)
    ⟨id, id, fun _ => ⟨[1, 1], [100]⟩⟩ 100 100
    rfl (by decide)
    (show extractPrices (lastN 60 (List.replicate 60 (Entry.priceRec 100)))
        = Except.ok (List.replicate 60 100) from rfl)
    rfl rfl rfl
    (show (List.replicate 60 (100:ℚ)).getLast? = some (100:ℚ) from rfl)
  with_unfolding_all decide

/-- Counterexample for C4 as stated: the computed confidence equals
|predicted - last| / last, but with a negative last price it is negative,
not non-negative. -/
theorem predict_conf_negative_cex :
    predict (fun _ => Except.ok (List.replicate 60 (Entry.priceRec (-4))))
        (fun _ => Except.ok ⟨id, id, fun _ => ⟨[1, 1], [-3]⟩⟩) "sol"
      = PredictResult.ok "up" (FloatQ.val (-1/4)) (-3) (-4) ∧
    (-1/4 : ℚ) < 0 :=
  ⟨by with_unfolding_all decide, by norm_num⟩

/-- C4 (amended): on the success path the confidence is the rounding of
|predicted - last| / last whenever the last price is nonzero — non-negative
whenever the last price is positive — and the unguarded division by a zero
last price produces the undefined (non-finite) value. -/
theorem predict_conf_formula (store : Store) (reg : ModelReg)
    (coin : String) (prices : List Entry) (w : List ℚ) (a : Artifacts)
    (v lp : ℚ)
    (hs : store coin = Except.ok prices) (hlen : 60 ≤ prices.length)
    (hw : extractPrices (lastN 60 prices) = Except.ok w)
    (hr : reg coin = Except.ok a)
    (hshape : (a.model (w.map a.transform)).shape = [1, 1])
    (helems : (a.model (w.map a.transform)).elems = [v])
    (hlast : w.getLast? = some lp) :
    (lp ≠ 0 →
      predict store reg coin = PredictResult.ok
        (if lp < a.inverse v then "up" else "down")
        (FloatQ.val (pyRound 4 (pyAbs (a.inverse v - lp) / lp)))
        (pyRound 2 (a.inverse v)) (pyRound 2 lp) ∧
      fdiv (pyAbs (a.inverse v - lp)) lp
        = FloatQ.val (pyAbs (a.inverse v - lp) / lp) ∧
      (0 < lp → 0 ≤ pyRound 4 (pyAbs (a.inverse v - lp) / lp))) ∧
    (lp = 0 →
      predict store reg coin = PredictResult.ok
        (if lp < a.inverse v then "up" else "down")
        FloatQ.undef (pyRound 2 (a.inverse v)) (pyRound 2 lp)) := by
  have h := predict_of_body_ok _ _ _ _ _
    (predictBody_eval store reg coin prices w a v lp hs hlen hw hr hshape helems hlast)
  constructor
  · intro hne
    refine ⟨?_, ?_, fun hp => pyRound_nonneg 4 (div_nonneg (pyAbs_nonneg _) hp.le)⟩
    · rw [h]
      simp only [fdiv, if_neg hne, FloatQ.roundTo]
    · simp only [fdiv, if_neg hne]
  · intro h0
    rw [h]
    subst h0
    simp [fdiv, FloatQ.roundTo]

/-- Witness for C4 (amended): last price 2, prediction 3 gives confidence
1/2 exactly. -/
theorem predict_conf_formula_witness :
    predict (fun _ => Except.ok
        (List.replicate 59 (Entry.priceRec 1) ++ [Entry.priceRec 2]))
      (fun _ => Except.ok ⟨id, id, fun _ => ⟨[1, 1], [3]⟩⟩) "eth"
      = PredictResult.ok "up" (FloatQ.val (1/2)) 3 2 := by
  have h := ((predict_conf_formula
    (fun _ => Except.ok (List.replicate 59 (Entry.priceRec 1) ++ [Entry.priceRec 2]))
    (fun _ => Except.ok ⟨id, id, fun _ => ⟨[1, 1], [3]⟩⟩) "eth"
    (List.replicate 59 (Entry.priceRec 1) ++ [Entry.priceRec 2])
    (List.replicate 59 1 ++ [2]) ⟨id, id, fun _ => ⟨[1, 1], [3]⟩⟩ 3 2
    rfl (by decide)
    (show extractPrices (lastN 60 (List.replicate 59 (Entry.priceRec 1)
        ++ [Entry.priceRec 2])) = Except.ok (List.replicate 59 1 ++ [2]) from rfl)
    rfl rfl rfl
    (show (List.replicate 59 (1:ℚ) ++ [2]).getLast? = some (2:ℚ) from rfl)).1
    (by norm_num)).1
  rw [h]
  with_unfolding_all decide

/-- Counterexample for C5 as stated: the arithmetic degeneracy (zero last
price) is a failure that is NOT surfaced as a payload with an error field —
predict returns a success-shaped payload with a non-finite confidence. -/
theorem predict_degenerate_no_error_cex :
    predict (fun _ => Except.ok (List.replicate 60 (Entry.priceRec 0)))
        (fun _ => Except.ok ⟨id, id, fun _ => ⟨[1, 1], [5]⟩⟩) "eth"
      = PredictResult.ok "up" FloatQ.undef 5 0 ∧
    PredictResult.isErr (PredictResult.ok "up" FloatQ.undef 5 0) = false ∧
    FloatQ.isFinite FloatQ.undef = false :=
  ⟨by with_unfolding_all decide, rfl, rfl⟩

/-- C5 (amended): predict always returns either an error payload or a
complete success payload; every exception (missing or unparsable data file,
malformed price entry, missing or corrupt artifact) is caught and returned
as the error payload carrying that exception message; the arithmetic
degeneracy of a zero last price is not caught but yields a success payload
with an undefined (non-finite) confidence. -/
theorem predict_error_containment (store : Store) (reg : ModelReg)
    (coin : String) :
    ((∃ m, predict store reg coin = PredictResult.err m) ∨
     (∃ d c p l, predict store reg coin = PredictResult.ok d c p l)) ∧
    (∀ e, store coin = Except.error e →
      predict store reg coin = PredictResult.err e) ∧
    (∀ prices m, store coin = Except.ok prices → 60 ≤ prices.length →
      extractPrices (lastN 60 prices) = Except.error m →
      predict store reg coin = PredictResult.err m) ∧
    (∀ prices w e, store coin = Except.ok prices → 60 ≤ prices.length →
      extractPrices (lastN 60 prices) = Except.ok w →
      reg coin = Except.error e →
      predict store reg coin = PredictResult.err e) ∧
    (∀ prices w a v, store coin = Except.ok prices → 60 ≤ prices.length →
      extractPrices (lastN 60 prices) = Except.ok w →
      reg coin = Except.ok a →
      (a.model (w.map a.transform)).shape = [1, 1] →
      (a.model (w.map a.transform)).elems = [v] →
      w.getLast? = some 0 →
      predict store reg coin = PredictResult.ok
        (if (0:ℚ) < a.inverse v then "up" else "down") FloatQ.undef
        (pyRound 2 (a.inverse v)) (pyRound 2 0)) := by
  refine ⟨?_, ?_, ?_, ?_, ?_⟩
  · cases h : predict store reg coin with
    | ok d c p l => exact Or.inr ⟨d, c, p, l, rfl⟩
    | err m => exact Or.inl ⟨m, rfl⟩
  · intro e hs
    exact predict_of_body_err _ _ _ _ _ (predictBody_store_err store reg coin e hs)
  · intro prices m hs hlen hx
    exact predict_of_body_err _ _ _ _ _
      (predictBody_extract_err store reg coin prices m hs hlen hx)
  · intro prices w e hs hlen hw hr
    exact predict_of_body_err _ _ _ _ _
      (predictBody_reg_err store reg coin prices w e hs hlen hw hr)
  · intro prices w a v hs hlen hw hr hshape helems hlast
    have h := predict_of_body_ok _ _ _ _ _
      (predictBody_eval store reg coin prices w a v 0 hs hlen hw hr hshape helems hlast)
    rw [h]
    simp [fdiv, FloatQ.roundTo]

/-- Witness for C5 (amended): a missing data file is returned as an error
payload with the exception message. -/
theorem predict_error_containment_witness :
    predict (fun _ => Except.error "data file missing")
        (fun _ => Except.error "no model") "btc"
      = PredictResult.err "data file missing" :=
  (predict_error_containment (fun _ => Except.error "data file missing")
    (fun _ => Except.error "no model") "btc").2.1 "data file missing" rfl

/-- C7: the success payload carries exactly the 2-decimal roundings of the
predicted and last price and the 4-decimal rounding of the confidence; the
rounded prices are integer multiples of 1/100 and a finite rounded
confidence an integer multiple of 1/10000. -/
theorem predict_rounding (store : Store) (reg : ModelReg)
    (coin : String) (prices : List Entry) (w : List ℚ) (a : Artifacts)
    (v lp : ℚ)
    (hs : store coin = Except.ok prices) (hlen : 60 ≤ prices.length)
    (hw : extractPrices (lastN 60 prices) = Except.ok w)
    (hr : reg coin = Except.ok a)
    (hshape : (a.model (w.map a.transform)).shape = [1, 1])
    (helems : (a.model (w.map a.transform)).elems = [v])
    (hlast : w.getLast? = some lp) :
    predict store reg coin = PredictResult.ok
        (if lp < a.inverse v then "up" else "down")
        (FloatQ.roundTo 4 (fdiv (pyAbs (a.inverse v - lp)) lp))
        (pyRound 2 (a.inverse v)) (pyRound 2 lp) ∧
    (∃ m : ℤ, pyRound 2 (a.inverse v) = m / 100) ∧
    (∃ m : ℤ, pyRound 2 lp = m / 100) ∧
    (∀ q : ℚ, fdiv (pyAbs (a.inverse v - lp)) lp = FloatQ.val q →
      FloatQ.roundTo 4 (fdiv (pyAbs (a.inverse v - lp)) lp)
        = FloatQ.val (pyRound 4 q) ∧ ∃ m : ℤ, pyRound 4 q = m / 10000) := by
  refine ⟨predict_of_body_ok _ _ _ _ _
    (predictBody_eval store reg coin prices w a v lp hs hlen hw hr hshape helems hlast),
    ⟨roundHalfEvenZ (a.inverse v * (10 ^ 2 : ℕ)), by norm_num [pyRound]⟩,
    ⟨roundHalfEvenZ (lp * (10 ^ 2 : ℕ)), by norm_num [pyRound]⟩, ?_⟩
  intro q hq
  rw [hq]
  exact ⟨rfl, ⟨roundHalfEvenZ (q * (10 ^ 4 : ℕ)), by norm_num [pyRound]⟩⟩

/-- Witness for C7: prices rounding to themselves and confidence 1/2. -/
theorem predict_rounding_witness :
    (predict (fun _ => Except.ok
        (List.replicate 59 (Entry.priceRec 1) ++ [Entry.priceRec 2]))
      (fun _ => Except.ok ⟨id, id, fun _ => ⟨[1, 1], [3]⟩⟩) "dot"
      = PredictResult.ok "up" (FloatQ.val (1/2)) 3 2) ∧
    (3:ℚ) = 300 / 100 := by
  have h := predict_rounding
    (fun _ => Except.ok (List.replicate 59 (Entry.priceRec 1) ++ [Entry.priceRec 2]))
    (fun _ => Except.ok ⟨id, id, fun _ => ⟨[1, 1], [3]⟩⟩) "dot"
    (List.replicate 59 (Entry.priceRec 1) ++ [Entry.priceRec 2])
    (List.replicate 59 1 ++ [2]) ⟨id, id, fun _ => ⟨[1, 1], [3]⟩⟩ 3 2
    rfl (by decide)
    (show extractPrices (lastN 60 (List.replicate 59 (Entry.priceRec 1)
        ++ [Entry.priceRec 2])) = Except.ok (List.replicate 59 1 ++ [2]) from rfl)
    rfl rfl rfl
    (show (List.replicate 59 (1:ℚ) ++ [2]).getLast? = some (2:ℚ) from rfl)
  constructor
  · rw [h.1]
    with_unfolding_all decide
  · norm_num

/-- Counterexample for C9 as stated: a data file whose stem itself ends in
".json" is listed under a stripped name with no backing artifact, while the
symbol that does have a backing artifact is absent from the listing. -/
theorem available_coins_double_json_cex :
    available_coins (Except.ok [("x.json.json").data])
      = CoinsResult.ok [("x").data] ∧
    [("x.json.json").data].contains (("x").data ++ jsonSuffix) = false ∧
    [("x.json.json").data].contains (("x.json").data ++ jsonSuffix) = true ∧
    (availableCoinsList [("x.json.json").data]).contains (("x.json").data)
      = false := by
  refine ⟨by with_unfolding_all decide, by with_unfolding_all decide,
    by with_unfolding_all decide, by with_unfolding_all decide⟩

/-- C9 (amended): for every directory listing in which stripping ".json"
exactly removes the final extension of each ".json" file (no stem contains
a further ".json" occurrence), the deterministic available-coins listing
contains exactly the symbols with a backing storage artifact; the model
and scaler artifacts play no part in the computation. -/
theorem available_coins_exact (files : List (List Char))
    (hclean : ∀ f ∈ files, endsWithJson f = true →
      replaceJson f ++ jsonSuffix = f) :
    available_coins (Except.ok files)
      = CoinsResult.ok (availableCoinsList files) ∧
    ∀ s : List Char, s ∈ availableCoinsList files ↔ s ++ jsonSuffix ∈ files := by
  refine ⟨rfl, fun s => ?_⟩
  constructor
  · intro hmem
    obtain ⟨f, hf, hrepl⟩ := List.mem_map.mp hmem
    have hfilter := List.mem_filter.mp hf
    rw [← hrepl, hclean f hfilter.1 hfilter.2]
    exact hfilter.1
  · intro hmem
    have hsuf : endsWithJson (s ++ jsonSuffix) = true :=
      decide_eq_true (List.suffix_append s jsonSuffix)
    have hcancel : replaceJson (s ++ jsonSuffix) = s :=
      List.append_cancel_right (hclean (s ++ jsonSuffix) hmem hsuf)
    exact List.mem_map.mpr ⟨s ++ jsonSuffix,
      List.mem_filter.mpr ⟨hmem, hsuf⟩, hcancel⟩

/-- Witness for C9 (amended): a listing holding one ".json" file and one
unrelated file lists exactly the stripped symbol. -/
theorem available_coins_exact_witness :
    available_coins (Except.ok [("btc.json").data, ("readme.txt").data])
      = CoinsResult.ok
          (availableCoinsList [("btc.json").data, ("readme.txt").data]) ∧
    ("btc").data ∈ availableCoinsList [("btc.json").data, ("readme.txt").data] := by
  have h := available_coins_exact [("btc.json").data, ("readme.txt").data]
    (by with_unfolding_all decide)
  exact ⟨h.1, (h.2 ("btc").data).mpr (by with_unfolding_all decide)⟩

end Cryptosia
